import Mathlib

/-!
Verification development for `rexrunner/yaml_run.py`, a declarative
command-based test harness.  Python strings are modelled as `List Char`;
fallible Python code (exceptions) is modelled with `Option`; the operating
system (child processes spawned by `subprocess.Popen`) is modelled as an
explicit environment mapping a command to its result.
-/

namespace RexRunner

/-- Python strings, modelled as lists of characters. -/
abbrev PyStr := List Char

/-- ASCII decimal digit test (codes 48–57). -/
def isDigitChar (c : Char) : Bool := 48 ≤ c.toNat && c.toNat ≤ 57

/-- Python `str.isspace` characters relevant to `str.strip()`:
space, tab, newline, carriage return, vertical tab, form feed. -/
def pyIsSpace (c : Char) : Bool :=
  c.toNat = 32 || c.toNat = 9 || c.toNat = 10 || c.toNat = 13 ||
  c.toNat = 11 || c.toNat = 12

/-- Python `str.lower()` on one ASCII character (all inputs reaching
`get_timeout` are ASCII): uppercase letters are shifted down by 32. -/
def pyToLower (c : Char) : Char :=
  if 65 ≤ c.toNat && c.toNat ≤ 90 then Char.ofNat (c.toNat + 32) else c

/-- Python `str.lower()`. -/
def pyLower (l : PyStr) : PyStr := l.map pyToLower

/-- Python `str.strip()`: drop leading and trailing whitespace. -/
def pyStrip (l : PyStr) : PyStr :=
  ((l.dropWhile pyIsSpace).reverse.dropWhile pyIsSpace).reverse

/-- Prepend a character to the first piece of a split result. -/
def consHead (c : Char) : List PyStr → List PyStr
  | [] => [[c]]
  | h :: t => (c :: h) :: t

/-- Python `str.split(sep)` for a one-character separator: split at every
occurrence, keeping empty pieces; the result is never empty. -/
def pySplit : PyStr → Char → List PyStr
  | [], _ => [[]]
  | c :: rest, sep =>
    if c = sep then [] :: pySplit rest sep
    else consHead c (pySplit rest sep)

/-- Value of a nonempty all-digit string; helper for `pyInt`. -/
def digitsToNat (l : PyStr) : Option Nat :=
  if !l.isEmpty && l.all isDigitChar then
    some (l.foldl (fun a c => 10 * a + (c.toNat - 48)) 0)
  else none

/-- Python `int(str)`: strips surrounding whitespace, accepts an optional
sign followed by decimal digits, raises `ValueError` (modelled as `none`)
otherwise.  (Underscore digit separators are not modelled; no input in
this development contains them.) -/
def pyInt (l : PyStr) : Option Int :=
  let t := pyStrip l
  if t.head? = some '+' then (digitsToNat t.tail).map Int.ofNat
  else if t.head? = some '-' then (digitsToNat t.tail).map (fun n => -(Int.ofNat n))
  else (digitsToNat t).map Int.ofNat

/-! ## Timeout parser (`Test.get_timeout`, yaml_run.py lines 82–99) -/

/-- The YAML `timeout` field is either a Python `int` or a string. -/
inductive TimeoutValue where
  | int (n : Int)
  | str (s : PyStr)

/-- The `'h'` branch of `get_timeout`:
`if 'h' in time_string: hours, time_string = time_string.split('h');
seconds += 3600 * int(hours)`.  Returns the seconds contributed and the
remaining string; `none` models a raised `ValueError` (tuple-unpacking a
split with more than two pieces, or a non-numeric segment). -/
def parseHours (t : PyStr) : Option (Int × PyStr) :=
  if t.contains 'h' then
    match pySplit t 'h' with
    | [hours, rest] =>
      match pyInt hours with
      | some h => some (3600 * h, rest)
      | none => none
    | _ => none
  else some (0, t)

/-- The `'m'` branch of `get_timeout`, as `parseHours`. -/
def parseMinutes (t : PyStr) : Option (Int × PyStr) :=
  if t.contains 'm' then
    match pySplit t 'm' with
    | [minutes, rest] =>
      match pyInt minutes with
      | some m => some (60 * m, rest)
      | none => none
    | _ => none
  else some (0, t)

/-- The trailing branch of `get_timeout`:
`if time_string: seconds += int(time_string.split('s')[0])`. -/
def parseTail (t : PyStr) : Option Int :=
  if t.isEmpty then some 0
  else pyInt ((pySplit t 's').headD [])

/-- `Test.get_timeout`.  The outer `Option` models a raised exception; the
inner `Option Int` is the Python return value, which is `None` for integer
input (the source's `return` on line 88 carries no value). -/
def get_timeout : TimeoutValue → Option (Option Int)
  | .int _ => some none
  | .str ts =>
    let time_string := pyLower ts
    match parseHours time_string with
    | none => none
    | some (hsecs, t1) =>
      match parseMinutes t1 with
      | none => none
      | some (msecs, t2) =>
        match parseTail t2 with
        | none => none
        | some ssecs => some (some (hsecs + msecs + ssecs))

/-! ## Regular expressions

`yaml_run.py` always calls `re.search(expression, output,
flags=re.MULTILINE | re.DOTALL)`.  Patterns are embedded as token lists:
literals, `.` (which under DOTALL matches any character, newline
included), `^` (under MULTILINE: start of string or right after a
newline) and `$` (under MULTILINE: end of string or right before a
newline). -/

inductive RTok where
  | lit (c : Char)
  | dot
  | caret
  | dollar
deriving DecidableEq

abbrev Regex := List RTok

/-- Match the whole token list starting at the current position.
`prev` is the character just before the position (`none` at the start of
the subject); the match itself may end anywhere. -/
def matchFrom : Regex → Option Char → PyStr → Bool
  | [], _, _ => true
  | .lit c :: rs, _, x :: rest => x == c && matchFrom rs (some x) rest
  | .lit _ :: _, _, [] => false
  | .dot :: rs, _, x :: rest => matchFrom rs (some x) rest
  | .dot :: _, _, [] => false
  | .caret :: rs, prev, rest =>
    (match prev with | none => true | some c => c == '\n') && matchFrom rs prev rest
  | .dollar :: rs, prev, rest =>
    (match rest with | [] => true | x :: _ => x == '\n') && matchFrom rs prev rest

/-- Search helper: try a match at the current position, else advance. -/
def reSearchAux (r : Regex) (prev : Option Char) : PyStr → Bool
  | [] => matchFrom r prev []
  | x :: rest => matchFrom r prev (x :: rest) || reSearchAux r (some x) rest

/-- `re.search(r, s, flags=re.MULTILINE | re.DOTALL)` succeeds, i.e. `r`
matches somewhere inside `s`. -/
def reSearch (r : Regex) (s : PyStr) : Bool := reSearchAux r none s

/-! ## Validators (`Validator`, yaml_run.py lines 30–73)

The validators return Python ints `0` (pass) and `1` (fail), and
`NOT_MATCH_CMD_OUTPUT` a Python bool; downstream only their truthiness is
ever used (`fail_status |= result` and `'PASS' if not result`), so a
validator result is modelled as a `Bool` fail flag: `false` = the rule
passed (Python `0`/`False`), `true` = the rule failed (Python
`1`/`True`). -/

/-- Result of spawning a secondary command with `subprocess.Popen` and
`communicate()` (no timeout): either the launch raises
(`FileNotFoundError` / `CalledProcessError`), or the process runs to
completion with captured raw stdout/stderr and an exit code. -/
inductive SecResult where
  | launchFail
  | ok (stdout : PyStr) (stderr : PyStr) (exitCode : Int)

/-- The operating system as seen by `validate_match_cmd_output`: what
running each command string produces. -/
abbrev Env := PyStr → SecResult

/-- `Validator.validate_match_output` (lines 33–38): `0` iff
`re.search(expression, output, flags=re.MULTILINE | re.DOTALL)` finds a
match. -/
def validate_match_output (output : PyStr) (expression : Regex) : Bool :=
  if reSearch expression output then false else true

/-- `Validator.validate_match_ec` (lines 40–45). -/
def validate_match_ec (exit_code : Int) (expected_exit_code : Int) : Bool :=
  if exit_code = expected_exit_code then false else true

/-- `Validator.validate_match_cmd_output` (lines 47–55): spawn the
command, capture its stdout (raw, not stripped) and match the pattern
against it; any launch failure is caught and returned as `1` (fail). -/
def validate_match_cmd_output (env : Env) (command : PyStr) (expression : Regex) : Bool :=
  match env command with
  | .launchFail => true
  | .ok stdout _ _ => validate_match_output stdout expression

/-- The `value` field of a verify rule: a pattern for `MATCH_OUTPUT`, an
int for `MATCH_EC`, a `{command, output}` pair for the two command-output
kinds. -/
inductive VerifyValue where
  | pattern (r : Regex)
  | ec (n : Int)
  | cmd (command : PyStr) (output : Regex)

/-- One entry of a test's `verify` list: `{name, value}`. -/
structure VerifyRule where
  name : String
  value : VerifyValue

/-- `Validator.run_validator` (lines 57–66).  The if/elif chain has no
else branch: a `verify_name` outside the four known kinds falls off the
end and returns Python `None`, modelled as `none`.  A `value` whose shape
does not fit the kind would raise a `TypeError` inside the branch, also
modelled as `none`. -/
def run_validator (env : Env) (verify_name : String) (test_exit_code : Int)
    (test_output : PyStr) (verify_value : VerifyValue) : Option Bool :=
  if verify_name = "MATCH_OUTPUT" then
    match verify_value with
    | .pattern r => some (validate_match_output test_output r)
    | _ => none
  else if verify_name = "MATCH_EC" then
    match verify_value with
    | .ec n => some (validate_match_ec test_exit_code n)
    | _ => none
  else if verify_name = "MATCH_CMD_OUTPUT" then
    match verify_value with
    | .cmd c r => some (validate_match_cmd_output env c r)
    | _ => none
  else if verify_name = "NOT_MATCH_CMD_OUTPUT" then
    match verify_value with
    | .cmd c r => some (!(validate_match_cmd_output env c r))
    | _ => none
  else none

/-- The loop of `Validator.run_validators` (lines 68–73):
`fail_status |= self.run_validator(...)` over the list.  When
`run_validator` returns `None`, the `|=` raises a `TypeError` (Python has
no `bool | NoneType`), so the whole call yields no value: `none`. -/
def run_validators_aux (env : Env) (test_exit_code : Int) (test_output : PyStr) :
    Bool → List VerifyRule → Option Bool
  | fail_status, [] => some fail_status
  | fail_status, v :: rest =>
    match run_validator env v.name test_exit_code test_output v.value with
    | none => none
    | some b => run_validators_aux env test_exit_code test_output (fail_status || b) rest

/-- `Validator.run_validators` (lines 68–73): OR-fold of the individual
fail flags, starting from `False`; truthy result means the test failed. -/
def run_validators (env : Env) (verify_list : List VerifyRule)
    (test_exit_code : Int) (test_output : PyStr) : Option Bool :=
  run_validators_aux env test_exit_code test_output false verify_list

/-! ## Process executor (`Test.execute`, yaml_run.py lines 101–120) -/

/-- How the primary command's subprocess behaves, decided by the
operating system: normal completion with raw outputs and exit code,
`subprocess.TimeoutExpired` from `communicate`, `CalledProcessError`, or
`FileNotFoundError` from `Popen` (the executable does not exist, with the
OS error string). -/
inductive ExecBehavior where
  | normal (returncode : Int) (stdout : PyStr) (stderr : PyStr)
  | timedOut
  | calledProcErr (output : PyStr)
  | notFound (strerror : PyStr)

/-- `Test.execute`: the returned `(return_code, stdout.strip(),
stderr.strip())` triple for each behavior.  On `TimeoutExpired` the
handler sets `(1, '', '')`, discarding captured output; on
`FileNotFoundError` stdout is set to the OS error string. -/
def execute : ExecBehavior → Int × PyStr × PyStr
  | .normal rc out err => (rc, pyStrip out, pyStrip err)
  | .timedOut => (1, pyStrip [], pyStrip [])
  | .calledProcErr out => (1, pyStrip out, pyStrip [])
  | .notFound strerror => (1, pyStrip strerror, pyStrip [])

/-- Whether the spawned child process is still running when
`Test.execute` returns.  Per the `subprocess` documentation,
`communicate(timeout=...)` raises `TimeoutExpired` *without* killing the
child; the handler on lines 110–112 only builds the `(1, '', '')` result
and never calls `kill()`/`terminate()`, so on the timeout path the child
survives.  On normal completion the child has exited; on
`FileNotFoundError` no child was ever spawned. -/
def child_running_after_execute : ExecBehavior → Bool
  | .timedOut => true
  | _ => false

/-! ## Test case (`Test.run` / `Test.verify`, yaml_run.py lines 122–136) -/

/-- The test record the core consumes (`TestData` attributes used by
`Test`). -/
structure TestSpec where
  name : PyStr
  command : PyStr
  timeout : TimeoutValue
  verify : List VerifyRule

/-- `Test.run` (lines 133–136): execute, then verify the exit code and
*stdout* (stderr is dropped) with `run_validators`.  The result is the
fail flag; `none` models the uncaught `TypeError` of `run_validators`. -/
def test_run (spec : TestSpec) (b : ExecBehavior) (env : Env) : Option Bool :=
  let r := execute b
  run_validators env spec.verify r.1 r.2.1




theorem contains_true_of_mem {l : PyStr} {c : Char} (h : c ∈ l) : l.contains c = true := by
  simp [List.contains, List.elem_eq_mem, h]

theorem contains_false_of_not_mem {l : PyStr} {c : Char} (h : c ∉ l) : l.contains c = false := by
  simp [List.contains, List.elem_eq_mem, h]

theorem dropWhile_all_false {p : Char → Bool} {l : List Char}
    (h : ∀ c ∈ l, p c = false) : l.dropWhile p = l := by
  cases l with
  | nil => rfl
  | cons a t => simp [List.dropWhile, h a (by simp)]

theorem isDigitChar_toNat {c : Char} (h : isDigitChar c = true) :
    48 ≤ c.toNat ∧ c.toNat ≤ 57 := by
  simpa [isDigitChar] using h

theorem not_mem_of_all_digit {l : PyStr} {c : Char} (hc : isDigitChar c = false)
    (h : ∀ x ∈ l, isDigitChar x = true) : c ∉ l := fun hm => by
  have h2 := h c hm
  rw [h2] at hc
  exact Bool.noConfusion hc

theorem pyToLower_digit {c : Char} (h : isDigitChar c = true) : pyToLower c = c := by
  have h2 := isDigitChar_toNat h
  unfold pyToLower
  split
  · next hcond =>
    exfalso
    simp only [Bool.and_eq_true, decide_eq_true_eq] at hcond
    omega
  · rfl

theorem pyIsSpace_digit {c : Char} (h : isDigitChar c = true) : pyIsSpace c = false := by
  have h2 := isDigitChar_toNat h
  unfold pyIsSpace
  simp only [Bool.or_eq_false_iff, decide_eq_false_iff_not]
  omega

theorem pyStrip_eq_self {l : PyStr} (h : ∀ c ∈ l, pyIsSpace c = false) : pyStrip l = l := by
  unfold pyStrip
  rw [dropWhile_all_false h,
      dropWhile_all_false (fun c hc => h c (List.mem_reverse.mp hc)),
      List.reverse_reverse]

def segVal (d : PyStr) : Int :=
  Int.ofNat (d.foldl (fun a c => 10 * a + (c.toNat - 48)) 0)

theorem pyInt_digits {d : PyStr} (hne : d ≠ []) (hd : ∀ c ∈ d, isDigitChar c = true) :
    pyInt d = some (segVal d) := by
  have hstrip : pyStrip d = d :=
    pyStrip_eq_self (fun c hc => pyIsSpace_digit (hd c hc))
  cases d with
  | nil => exact absurd rfl hne
  | cons c rest =>
    have hc := hd c (by simp)
    have hplus : c ≠ '+' := fun e => by rw [e] at hc; exact absurd hc (by decide)
    have hminus : c ≠ '-' := fun e => by rw [e] at hc; exact absurd hc (by decide)
    unfold pyInt
    rw [hstrip]
    simp only [List.head?_cons, Option.some.injEq, if_neg hplus, if_neg hminus]
    unfold digitsToNat
    rw [if_pos]
    · rfl
    · simp only [List.isEmpty_cons, Bool.not_false, Bool.true_and, List.all_eq_true]
      exact hd

theorem pySplit_not_mem {l : PyStr} {sep : Char} (h : sep ∉ l) : pySplit l sep = [l] := by
  induction l with
  | nil => rfl
  | cons c rest ih =>
    have hcs : c ≠ sep := fun e => h (by simp [e])
    have hrest : sep ∉ rest := fun hm => h (by simp [hm])
    simp only [pySplit]
    rw [if_neg hcs, ih hrest]
    rfl

theorem pySplit_append {a b : PyStr} {sep : Char} (h : sep ∉ a) :
    pySplit (a ++ sep :: b) sep = a :: pySplit b sep := by
  induction a with
  | nil => simp [pySplit]
  | cons c rest ih =>
    have hcs : c ≠ sep := fun e => h (by simp [e])
    have hrest : sep ∉ rest := fun hm => h (by simp [hm])
    simp only [List.cons_append]
    simp only [pySplit]
    rw [if_neg hcs, ih hrest]
    rfl

theorem parseHours_absent {t : PyStr} (h : 'h' ∉ t) : parseHours t = some (0, t) := by
  unfold parseHours
  rw [contains_false_of_not_mem h]
  rfl

theorem parseHours_present {d rest : PyStr} (hne : d ≠ [])
    (hd : ∀ c ∈ d, isDigitChar c = true) (hrest : 'h' ∉ rest) :
    parseHours (d ++ 'h' :: rest) = some (3600 * segVal d, rest) := by
  have hdh : 'h' ∉ d := not_mem_of_all_digit (by decide) hd
  unfold parseHours
  rw [contains_true_of_mem (by simp : 'h' ∈ d ++ 'h' :: rest)]
  rw [if_pos rfl, pySplit_append hdh, pySplit_not_mem hrest]
  simp [pyInt_digits hne hd]

theorem parseMinutes_absent {t : PyStr} (h : 'm' ∉ t) : parseMinutes t = some (0, t) := by
  unfold parseMinutes
  rw [contains_false_of_not_mem h]
  rfl

theorem parseMinutes_present {d rest : PyStr} (hne : d ≠ [])
    (hd : ∀ c ∈ d, isDigitChar c = true) (hrest : 'm' ∉ rest) :
    parseMinutes (d ++ 'm' :: rest) = some (60 * segVal d, rest) := by
  have hdm : 'm' ∉ d := not_mem_of_all_digit (by decide) hd
  unfold parseMinutes
  rw [contains_true_of_mem (by simp : 'm' ∈ d ++ 'm' :: rest)]
  rw [if_pos rfl, pySplit_append hdm, pySplit_not_mem hrest]
  simp [pyInt_digits hne hd]

theorem parseTail_nil : parseTail [] = some 0 := rfl

theorem parseTail_digits {d : PyStr} (hne : d ≠ []) (hd : ∀ c ∈ d, isDigitChar c = true) :
    parseTail d = some (segVal d) := by
  have hs : 's' ∉ d := not_mem_of_all_digit (by decide) hd
  unfold parseTail
  rw [if_neg (by simp [List.isEmpty_iff, hne]), pySplit_not_mem hs]
  exact pyInt_digits hne hd

theorem parseTail_digits_s {d : PyStr} (hne : d ≠ []) (hd : ∀ c ∈ d, isDigitChar c = true) :
    parseTail (d ++ ['s']) = some (segVal d) := by
  have hs : 's' ∉ d := not_mem_of_all_digit (by decide) hd
  unfold parseTail
  rw [if_neg (by simp [List.isEmpty_iff]), (by rfl : d ++ ['s'] = d ++ 's' :: []),
      pySplit_append hs]
  exact pyInt_digits hne hd


/-! ## Well-formed compound timeout strings (for the spec contract) -/

/-- An optional `<digits><unit>` segment rendered into the timeout string. -/
def renderSeg (o : Option PyStr) (u : Char) : PyStr :=
  match o with
  | none => []
  | some d => d ++ [u]

/-- The trailing segment: digits with or without the `s` suffix. -/
def renderTail : Option (PyStr × Bool) → PyStr
  | none => []
  | some (d, true) => d ++ ['s']
  | some (d, false) => d

/-- A well-formed compound timeout string: optional hours, minutes and
seconds segments, in that fixed order. -/
def renderTimeout (oh om : Option PyStr) (ot : Option (PyStr × Bool)) : PyStr :=
  renderSeg oh 'h' ++ (renderSeg om 'm' ++ renderTail ot)

def segValOpt : Option PyStr → Int
  | none => 0
  | some d => segVal d

def segValTail : Option (PyStr × Bool) → Int
  | none => 0
  | some (d, _) => segVal d

/-- Total seconds a well-formed compound string denotes. -/
def timeoutVal (oh om : Option PyStr) (ot : Option (PyStr × Bool)) : Int :=
  3600 * segValOpt oh + 60 * segValOpt om + segValTail ot

/-- A present segment must be a nonempty digit string. -/
def segOk : Option PyStr → Bool
  | none => true
  | some d => !d.isEmpty && d.all isDigitChar

def tailOk : Option (PyStr × Bool) → Bool
  | none => true
  | some (d, _) => !d.isEmpty && d.all isDigitChar

theorem segOk_props {d : PyStr} (h : segOk (some d) = true) :
    d ≠ [] ∧ ∀ c ∈ d, isDigitChar c = true := by
  simp only [segOk, Bool.and_eq_true, Bool.not_eq_true', List.all_eq_true] at h
  refine ⟨?_, h.2⟩
  intro e
  rw [e] at h
  exact absurd h.1 (by decide)

theorem tailOk_props {d : PyStr} {b : Bool} (h : tailOk (some (d, b)) = true) :
    d ≠ [] ∧ ∀ c ∈ d, isDigitChar c = true := by
  simp only [tailOk, Bool.and_eq_true, Bool.not_eq_true', List.all_eq_true] at h
  refine ⟨?_, h.2⟩
  intro e
  rw [e] at h
  exact absurd h.1 (by decide)

theorem mem_renderSeg {o : Option PyStr} {u c : Char} (ho : segOk o = true)
    (hc : c ∈ renderSeg o u) : isDigitChar c = true ∨ c = u := by
  cases o with
  | none => simp [renderSeg] at hc
  | some d =>
    simp only [renderSeg, List.mem_append, List.mem_singleton] at hc
    rcases hc with hcd | rfl
    · exact Or.inl ((segOk_props ho).2 c hcd)
    · exact Or.inr rfl

theorem mem_renderTail {ot : Option (PyStr × Bool)} {c : Char} (ho : tailOk ot = true)
    (hc : c ∈ renderTail ot) : isDigitChar c = true ∨ c = 's' := by
  cases ot with
  | none => simp [renderTail] at hc
  | some p =>
    obtain ⟨d, b⟩ := p
    cases b with
    | true =>
      simp only [renderTail, List.mem_append, List.mem_singleton] at hc
      rcases hc with hcd | rfl
      · exact Or.inl ((tailOk_props ho).2 c hcd)
      · exact Or.inr rfl
    | false =>
      exact Or.inl ((tailOk_props ho).2 c hc)

theorem map_id_of_forall {l : PyStr} {f : Char → Char} (h : ∀ c ∈ l, f c = c) :
    List.map f l = l := by
  induction l with
  | nil => rfl
  | cons a t ih =>
    simp only [List.map_cons]
    rw [h a (List.mem_cons_self a t), ih (fun c hc => h c (List.mem_cons_of_mem a hc))]

theorem pyLower_render {oh om : Option PyStr} {ot : Option (PyStr × Bool)}
    (hh : segOk oh = true) (hm : segOk om = true) (ht : tailOk ot = true) :
    pyLower (renderTimeout oh om ot) = renderTimeout oh om ot := by
  refine map_id_of_forall ?_
  intro c hc
  unfold renderTimeout at hc
  simp only [List.mem_append] at hc
  rcases hc with h1 | h2 | h3
  · rcases mem_renderSeg hh h1 with hd | rfl
    · exact pyToLower_digit hd
    · decide
  · rcases mem_renderSeg hm h2 with hd | rfl
    · exact pyToLower_digit hd
    · decide
  · rcases mem_renderTail ht h3 with hd | rfl
    · exact pyToLower_digit hd
    · decide

theorem not_mem_renderTail {c : Char} (hcdig : isDigitChar c = false)
    {ot : Option (PyStr × Bool)} (ht : tailOk ot = true) (hcs : c ≠ 's') :
    c ∉ renderTail ot := fun hmem => by
  rcases mem_renderTail ht hmem with hd | rfl
  · rw [hd] at hcdig; exact Bool.noConfusion hcdig
  · exact hcs rfl

theorem hms_not_mem {c : Char} (hcdig : isDigitChar c = false)
    {om : Option PyStr} {ot : Option (PyStr × Bool)}
    (hm : segOk om = true) (ht : tailOk ot = true)
    (hcm : c ≠ 'm') (hcs : c ≠ 's') :
    c ∉ renderSeg om 'm' ++ renderTail ot := by
  intro hmem
  rcases List.mem_append.mp hmem with h1 | h2
  · rcases mem_renderSeg hm h1 with hd | rfl
    · rw [hd] at hcdig; exact Bool.noConfusion hcdig
    · exact hcm rfl
  · exact not_mem_renderTail hcdig ht hcs h2

theorem parseHours_render {oh om : Option PyStr} {ot : Option (PyStr × Bool)}
    (hh : segOk oh = true) (hm : segOk om = true) (ht : tailOk ot = true) :
    parseHours (renderTimeout oh om ot)
      = some (3600 * segValOpt oh, renderSeg om 'm' ++ renderTail ot) := by
  have hnot : 'h' ∉ renderSeg om 'm' ++ renderTail ot :=
    hms_not_mem (by decide) hm ht (by decide) (by decide)
  cases oh with
  | none =>
    have he : renderTimeout none om ot = renderSeg om 'm' ++ renderTail ot := by
      simp [renderTimeout, renderSeg]
    rw [he, parseHours_absent hnot]
    simp [segValOpt]
  | some d =>
    obtain ⟨hne, hd⟩ := segOk_props hh
    have he : renderTimeout (some d) om ot
        = d ++ 'h' :: (renderSeg om 'm' ++ renderTail ot) := by
      simp [renderTimeout, renderSeg]
    rw [he, parseHours_present hne hd hnot]
    simp [segValOpt]

theorem parseMinutes_render {om : Option PyStr} {ot : Option (PyStr × Bool)}
    (hm : segOk om = true) (ht : tailOk ot = true) :
    parseMinutes (renderSeg om 'm' ++ renderTail ot)
      = some (60 * segValOpt om, renderTail ot) := by
  have hnot : 'm' ∉ renderTail ot := not_mem_renderTail (by decide) ht (by decide)
  cases om with
  | none =>
    have he : renderSeg none 'm' ++ renderTail ot = renderTail ot := by
      simp [renderSeg]
    rw [he, parseMinutes_absent hnot]
    simp [segValOpt]
  | some d =>
    obtain ⟨hne, hd⟩ := segOk_props hm
    have he : renderSeg (some d) 'm' ++ renderTail ot = d ++ 'm' :: renderTail ot := by
      simp [renderSeg]
    rw [he, parseMinutes_present hne hd hnot]
    simp [segValOpt]

theorem parseTail_render {ot : Option (PyStr × Bool)} (ht : tailOk ot = true) :
    parseTail (renderTail ot) = some (segValTail ot) := by
  cases ot with
  | none => exact parseTail_nil
  | some p =>
    obtain ⟨d, b⟩ := p
    obtain ⟨hne, hd⟩ := tailOk_props ht
    cases b with
    | true => exact parseTail_digits_s hne hd
    | false => exact parseTail_digits hne hd

theorem get_timeout_render (oh om : Option PyStr) (ot : Option (PyStr × Bool))
    (hh : segOk oh = true) (hm : segOk om = true) (ht : tailOk ot = true) :
    get_timeout (.str (renderTimeout oh om ot)) = some (some (timeoutVal oh om ot)) := by
  simp only [get_timeout, pyLower_render hh hm ht, parseHours_render hh hm ht,
    parseMinutes_render hm ht, parseTail_render ht, timeoutVal]


/-! ## Fold lemmas for the rule-set evaluator -/

theorem run_validators_aux_some (env : Env) (ec : Int) (out : PyStr)
    (l : List VerifyRule) (acc : Bool)
    (h : ∀ v ∈ l, (run_validator env v.name ec out v.value).isSome = true) :
    run_validators_aux env ec out acc l
      = some (acc || l.any fun v => (run_validator env v.name ec out v.value).getD false) := by
  induction l generalizing acc with
  | nil => simp [run_validators_aux]
  | cons v rest ih =>
    obtain ⟨b, hb⟩ := Option.isSome_iff_exists.mp (h v (List.mem_cons_self v rest))
    have hrest := fun w hw => h w (List.mem_cons_of_mem v hw)
    simp only [run_validators_aux, hb, ih _ hrest, List.any_cons, Option.getD_some,
      Bool.or_assoc]

theorem run_validators_aux_none (env : Env) (ec : Int) (out : PyStr)
    (l : List VerifyRule) (acc : Bool)
    (h : ∃ v ∈ l, run_validator env v.name ec out v.value = none) :
    run_validators_aux env ec out acc l = none := by
  induction l generalizing acc with
  | nil => simp at h
  | cons v rest ih =>
    obtain ⟨w, hw, hnone⟩ := h
    rcases List.mem_cons.mp hw with rfl | hmem
    · simp only [run_validators_aux, hnone]
    · cases hF : run_validator env v.name ec out v.value with
      | none => simp only [run_validators_aux, hF]
      | some b =>
        simp only [run_validators_aux, hF]
        exact ih _ ⟨w, hmem, hnone⟩

/-! ## Claim theorems -/

/-- C1: the claim says `get_timeout` returns a non-negative integer input
unchanged (30 → 30); the code's `return` on line 88 carries no value, so
the Python function returns `None` for every integer input, and in
particular not `30` for input `30`. -/
theorem timeout_parser_int_returns_python_none :
    (∀ n : Int, get_timeout (.int n) = some none) ∧
    get_timeout (.int 30) ≠ some (some 30) :=
  ⟨fun _ => rfl, by decide⟩

/-- C2: `NOT_MATCH_CMD_OUTPUT` passes iff `MATCH_CMD_OUTPUT` with the same
command and pattern fails (its fail flag is the boolean negation), and a
launch failure of the secondary command makes `MATCH_CMD_OUTPUT` fail and
`NOT_MATCH_CMD_OUTPUT` pass. -/
theorem not_match_cmd_output_negation (env : Env) (cmd : PyStr) (p : Regex)
    (ec : Int) (out : PyStr) :
    run_validator env "NOT_MATCH_CMD_OUTPUT" ec out (.cmd cmd p)
      = some (!(validate_match_cmd_output env cmd p)) ∧
    run_validator env "MATCH_CMD_OUTPUT" ec out (.cmd cmd p)
      = some (validate_match_cmd_output env cmd p) ∧
    (env cmd = SecResult.launchFail →
      validate_match_cmd_output env cmd p = true ∧
      run_validator env "NOT_MATCH_CMD_OUTPUT" ec out (.cmd cmd p) = some false) := by
  refine ⟨rfl, rfl, fun h => ?_⟩
  have hfail : validate_match_cmd_output env cmd p = true := by
    unfold validate_match_cmd_output
    rw [h]
  refine ⟨hfail, ?_⟩
  have h1 : run_validator env "NOT_MATCH_CMD_OUTPUT" ec out (.cmd cmd p)
      = some (!(validate_match_cmd_output env cmd p)) := rfl
  rw [h1, hfail]
  rfl

theorem not_match_cmd_output_negation_witness :
    validate_match_cmd_output (fun _ => SecResult.launchFail) "x".toList [] = true ∧
    run_validator (fun _ => SecResult.launchFail) "NOT_MATCH_CMD_OUTPUT" 0 []
      (.cmd "x".toList []) = some false :=
  (not_match_cmd_output_negation (fun _ => SecResult.launchFail) "x".toList [] 0 []).2.2 rfl

/-- C3: when every rule in the list dispatches to a known validator, the
overall fail flag is the OR of the individual fail flags: the verdict is
FAIL (`some true`) iff some rule failed, PASS (`some false`) iff every
rule passed, and the empty rule list yields PASS. -/
theorem rule_set_or_reduction (env : Env) (l : List VerifyRule) (ec : Int) (out : PyStr)
    (h : ∀ v ∈ l, (run_validator env v.name ec out v.value).isSome = true) :
    (run_validators env l ec out = some true ↔
      ∃ v ∈ l, run_validator env v.name ec out v.value = some true) ∧
    (run_validators env l ec out = some false ↔
      ∀ v ∈ l, run_validator env v.name ec out v.value = some false) ∧
    run_validators env [] ec out = some false := by
  have hmain : run_validators env l ec out
      = some (l.any fun v => (run_validator env v.name ec out v.value).getD false) := by
    have := run_validators_aux_some env ec out l false h
    simpa [run_validators] using this
  refine ⟨?_, ?_, rfl⟩
  · rw [hmain]
    simp only [Option.some.injEq]
    constructor
    · intro hany
      obtain ⟨v, hv, hpv⟩ := List.any_eq_true.mp hany
      obtain ⟨b, hb⟩ := Option.isSome_iff_exists.mp (h v hv)
      rw [hb] at hpv
      simp at hpv
      exact ⟨v, hv, by rw [hb, hpv]⟩
    · rintro ⟨v, hv, hsome⟩
      refine List.any_eq_true.mpr ⟨v, hv, ?_⟩
      rw [hsome]
      rfl
  · rw [hmain]
    simp only [Option.some.injEq]
    constructor
    · intro hnone v hv
      have h2 := List.any_eq_false.mp hnone v hv
      obtain ⟨b, hb⟩ := Option.isSome_iff_exists.mp (h v hv)
      rw [hb] at h2 ⊢
      simp at h2
      rw [h2]
    · intro hall
      refine List.any_eq_false.mpr ?_
      intro v hv
      rw [hall v hv]
      simp

theorem rule_set_or_reduction_witness :
    run_validators (fun _ => SecResult.launchFail) ([] : List VerifyRule) 0 ([] : PyStr)
      = some false :=
  (rule_set_or_reduction (fun _ => SecResult.launchFail) [] 0 [] (by simp)).2.2


/-- C4: the claim says a command exceeding its timeout always has its
child process terminated.  `communicate(timeout=...)` raises
`TimeoutExpired` without killing the child and the handler (lines
110–112) never calls `kill()`/`terminate()`, so on the timeout path the
executor returns the `(1, '', '')` outcome while the child is still
running. -/
theorem timeout_child_not_terminated :
    child_running_after_execute .timedOut = true ∧
    execute .timedOut = (1, ([] : PyStr), ([] : PyStr)) :=
  ⟨rfl, rfl⟩

/-- C5 counterexample: a test whose executor times out still has its
`MATCH_OUTPUT` rule evaluated, but the rule does *not* necessarily fail:
the pattern `^$` matches the empty timeout stdout, so this test PASSes
(`some false`), contradicting "such a failure causes every
output-dependent rule of that test to fail". -/
theorem timeout_match_output_rule_can_pass :
    test_run ⟨[], [], .int 1, [⟨"MATCH_OUTPUT", .pattern [.caret, .dollar]⟩]⟩
      .timedOut (fun _ => SecResult.launchFail) = some false := by decide

/-- C5 (amended): on an executor failure the rules are still evaluated
against a concrete outcome — exit code 1 with empty stdout on timeout,
the stripped OS error message on a missing executable — and a
`MATCH_OUTPUT` rule then fails exactly when its pattern does not match
that degraded stdout (a pattern matching the empty string still passes
after a timeout). -/
theorem executor_failure_rules_still_evaluated (env : Env) (nm cm : PyStr)
    (tv : TimeoutValue) (rules : List VerifyRule) (msg : PyStr) (r : Regex) (ec : Int) :
    test_run ⟨nm, cm, tv, rules⟩ .timedOut env = run_validators env rules 1 [] ∧
    test_run ⟨nm, cm, tv, rules⟩ (.notFound msg) env
      = run_validators env rules 1 (pyStrip msg) ∧
    run_validator env "MATCH_OUTPUT" ec [] (.pattern r) = some (!(reSearch r [])) := by
  refine ⟨rfl, rfl, ?_⟩
  have h1 : run_validator env "MATCH_OUTPUT" ec [] (.pattern r)
      = some (validate_match_output [] r) := rfl
  rw [h1]
  unfold validate_match_output
  cases reSearch r [] <;> rfl

/-- C6: for every well-formed compound timeout string — optional hour,
minute and second segments in that fixed order, each a nonempty digit
string, the trailing numeric remainder with or without the `s` suffix —
`get_timeout` returns hours·3600 + minutes·60 + seconds; in particular
`"1h2m3s"` → 3723, `"90s"` → 90 and `"2m"` → 120. -/
theorem timeout_parser_compound (oh om : Option PyStr) (ot : Option (PyStr × Bool))
    (hh : segOk oh = true) (hm : segOk om = true) (ht : tailOk ot = true) :
    get_timeout (.str (renderTimeout oh om ot)) = some (some (timeoutVal oh om ot)) ∧
    get_timeout (.str "1h2m3s".toList) = some (some 3723) ∧
    get_timeout (.str "90s".toList) = some (some 90) ∧
    get_timeout (.str "2m".toList) = some (some 120) :=
  ⟨get_timeout_render oh om ot hh hm ht, by decide, by decide, by decide⟩

theorem timeout_parser_compound_witness :
    get_timeout (.str (renderTimeout (some ['1']) (some ['2']) (some (['3'], true))))
      = some (some (timeoutVal (some ['1']) (some ['2']) (some (['3'], true)))) :=
  (timeout_parser_compound (some ['1']) (some ['2']) (some (['3'], true))
    (by decide) (by decide) (by decide)).1

/-- C7: when the wait elapses, `Test.execute` returns the sentinel exit
code 1 and empty stdout/stderr, discarding any output captured before the
timeout. -/
theorem timeout_outcome_sentinel :
    execute .timedOut = (1, ([] : PyStr), ([] : PyStr)) := rfl

/-- C8: a `MATCH_OUTPUT` rule passes iff its pattern matches anywhere in
the whitespace-trimmed stdout under MULTILINE + DOTALL semantics: the
fail flag of `validate_match_output` is the negation of `reSearch`, the
test pipeline feeds the rule the *stripped* stdout, and `^OK$` matches
`"OK"` and `"line1\nOK\nline3"` but not `"not ok"`. -/
theorem match_output_regex_semantics (rc : Int) (rawOut rawErr : PyStr) (r : Regex)
    (env : Env) (nm cm : PyStr) (tv : TimeoutValue) :
    validate_match_output rawOut r = !(reSearch r rawOut) ∧
    test_run ⟨nm, cm, tv, [⟨"MATCH_OUTPUT", .pattern r⟩]⟩ (.normal rc rawOut rawErr) env
      = some (!(reSearch r (pyStrip rawOut))) ∧
    reSearch [.caret, .lit 'O', .lit 'K', .dollar] "OK".toList = true ∧
    reSearch [.caret, .lit 'O', .lit 'K', .dollar] "line1\nOK\nline3".toList = true ∧
    reSearch [.caret, .lit 'O', .lit 'K', .dollar] "not ok".toList = false := by
  refine ⟨?_, ?_, by decide, by decide, by decide⟩
  · unfold validate_match_output
    cases reSearch r rawOut <;> rfl
  · have h1 : test_run ⟨nm, cm, tv, [⟨"MATCH_OUTPUT", .pattern r⟩]⟩
        (.normal rc rawOut rawErr) env
        = some (validate_match_output (pyStrip rawOut) r) := rfl
    rw [h1]
    unfold validate_match_output
    cases reSearch r (pyStrip rawOut) <;> rfl

/-- C9: rule dispatch is total only on the four known kind strings: any
other kind makes `run_validator` return Python `None`, and the `|=`
reduction in `run_validators` then raises, so a test containing such a
rule yields no verdict at all (modelled as `none`) instead of FAIL. -/
theorem unknown_rule_kind_no_verdict (env : Env) (name : String) (ec : Int)
    (out : PyStr) (value : VerifyValue)
    (hname : name ≠ "MATCH_OUTPUT" ∧ name ≠ "MATCH_EC" ∧
             name ≠ "MATCH_CMD_OUTPUT" ∧ name ≠ "NOT_MATCH_CMD_OUTPUT") :
    run_validator env name ec out value = none ∧
    ∀ l : List VerifyRule, (⟨name, value⟩ : VerifyRule) ∈ l →
      run_validators env l ec out = none := by
  have h1 : run_validator env name ec out value = none := by
    unfold run_validator
    rw [if_neg hname.1, if_neg hname.2.1, if_neg hname.2.2.1, if_neg hname.2.2.2]
  exact ⟨h1, fun l hl =>
    run_validators_aux_none env ec out l false ⟨⟨name, value⟩, hl, h1⟩⟩

theorem unknown_rule_kind_no_verdict_witness :
    run_validator (fun _ => SecResult.launchFail) "MATCH_STDERR" 0 [] (.ec 0) = none ∧
    run_validators (fun _ => SecResult.launchFail) [⟨"MATCH_STDERR", .ec 0⟩] 0 []
      = none := by
  have h := unknown_rule_kind_no_verdict (fun _ => SecResult.launchFail) "MATCH_STDERR"
    0 [] (.ec 0) (by refine ⟨?_, ?_, ?_, ?_⟩ <;> decide)
  exact ⟨h.1, h.2 _ (List.mem_singleton_self _)⟩

/-- C10: a `MATCH_CMD_OUTPUT` pattern is matched against the secondary
command's *raw* stdout, while the primary pipeline strips stdout before
rule evaluation; consequently the anchored pattern `^OK$` passes against
primary stdout `"OK "` (trimmed to `"OK"`) but the same pattern fails
against the same raw secondary stdout `"OK "`. -/
theorem cmd_output_raw_vs_primary_trimmed (out errS : PyStr) (rcS : Int)
    (cmd : PyStr) (r : Regex) :
    validate_match_cmd_output (fun _ => SecResult.ok out errS rcS) cmd r
      = validate_match_output out r ∧
    validate_match_cmd_output (fun _ => SecResult.ok "OK ".toList [] 0) []
      [.caret, .lit 'O', .lit 'K', .dollar] = true ∧
    validate_match_output (pyStrip "OK ".toList)
      [.caret, .lit 'O', .lit 'K', .dollar] = false ∧
    test_run ⟨[], [], .int 1, [⟨"MATCH_OUTPUT",
        .pattern [.caret, .lit 'O', .lit 'K', .dollar]⟩]⟩
      (.normal 0 "OK ".toList []) (fun _ => SecResult.launchFail) = some false :=
  ⟨rfl, by decide, by decide, by decide⟩

end RexRunner
